import Mathlib

/-!
Verification development for two adapters of a game-engine compatibility
layer:

* `src/engines/ags/events.cpp` — an input-event translator
  (`EventsManager`) converting a host event stream into a legacy
  keyboard/joystick scancode model;
* `src/gui/widgets/editable.cpp` — the key-down state machine of an
  editable single-line text widget (`EditableWidget`).

The definitions below are a shallow embedding of those two files.  Host
enumerations and host library routines whose defining headers are not part
of the two source files (keycode values, legacy scancode values, the
string-class primitives, clipboard and font-metric services) are modelled
explicitly and marked as such; everything else is translated directly from
the source.
-/

set_option maxRecDepth 4000

/-! ## Host keycode enumeration

Modelled from the spec: the host windowing layer's keycode enumeration
(`Common::KEYCODE_*`, declared outside the two source files).  The source
relies on the standard (SDL-style) values: the letter, digit, keypad and
function-key blocks are contiguous, which the range arithmetic in
`getScancode` and the keypad remap in `handleKeyDown` both exploit.
-/

def KEYCODE_INVALID : Nat := 0
def KEYCODE_BACKSPACE : Nat := 8
def KEYCODE_TAB : Nat := 9
def KEYCODE_RETURN : Nat := 13
def KEYCODE_PAUSE : Nat := 19
def KEYCODE_ESCAPE : Nat := 27
def KEYCODE_SPACE : Nat := 32
def KEYCODE_QUOTE : Nat := 39
def KEYCODE_ASTERISK : Nat := 42
def KEYCODE_COMMA : Nat := 44
def KEYCODE_MINUS : Nat := 45
def KEYCODE_SLASH : Nat := 47
def KEYCODE_0 : Nat := 48
def KEYCODE_9 : Nat := 57
def KEYCODE_COLON : Nat := 58
def KEYCODE_SEMICOLON : Nat := 59
def KEYCODE_EQUALS : Nat := 61
def KEYCODE_LEFTBRACKET : Nat := 91
def KEYCODE_BACKSLASH : Nat := 92
def KEYCODE_RIGHTBRACKET : Nat := 93
def KEYCODE_a : Nat := 97
def KEYCODE_c : Nat := 99
def KEYCODE_v : Nat := 118
def KEYCODE_z : Nat := 122
def KEYCODE_TILDE : Nat := 126
def KEYCODE_DELETE : Nat := 127
def KEYCODE_KP0 : Nat := 256
def KEYCODE_KP1 : Nat := 257
def KEYCODE_KP2 : Nat := 258
def KEYCODE_KP3 : Nat := 259
def KEYCODE_KP4 : Nat := 260
def KEYCODE_KP5 : Nat := 261
def KEYCODE_KP6 : Nat := 262
def KEYCODE_KP7 : Nat := 263
def KEYCODE_KP8 : Nat := 264
def KEYCODE_KP9 : Nat := 265
def KEYCODE_KP_PERIOD : Nat := 266
def KEYCODE_KP_DIVIDE : Nat := 267
def KEYCODE_KP_MINUS : Nat := 269
def KEYCODE_KP_PLUS : Nat := 270
def KEYCODE_KP_ENTER : Nat := 271
def KEYCODE_UP : Nat := 273
def KEYCODE_DOWN : Nat := 274
def KEYCODE_RIGHT : Nat := 275
def KEYCODE_LEFT : Nat := 276
def KEYCODE_INSERT : Nat := 277
def KEYCODE_HOME : Nat := 278
def KEYCODE_END : Nat := 279
def KEYCODE_PAGEUP : Nat := 280
def KEYCODE_PAGEDOWN : Nat := 281
def KEYCODE_F1 : Nat := 282
def KEYCODE_F2 : Nat := 283
def KEYCODE_F3 : Nat := 284
def KEYCODE_F4 : Nat := 285
def KEYCODE_F5 : Nat := 286
def KEYCODE_F6 : Nat := 287
def KEYCODE_F7 : Nat := 288
def KEYCODE_F8 : Nat := 289
def KEYCODE_F9 : Nat := 290
def KEYCODE_F10 : Nat := 291
def KEYCODE_F11 : Nat := 292
def KEYCODE_F12 : Nat := 293
def KEYCODE_F13 : Nat := 294
def KEYCODE_NUMLOCK : Nat := 300
def KEYCODE_CAPSLOCK : Nat := 301
def KEYCODE_SCROLLOCK : Nat := 302
def KEYCODE_RSHIFT : Nat := 303
def KEYCODE_LSHIFT : Nat := 304
def KEYCODE_RCTRL : Nat := 305
def KEYCODE_LCTRL : Nat := 306
def KEYCODE_RALT : Nat := 307
def KEYCODE_LALT : Nat := 308
def KEYCODE_LSUPER : Nat := 311
def KEYCODE_RSUPER : Nat := 312
def KEYCODE_PRINT : Nat := 316

/-! ## Legacy scancode enumeration

Modelled from the spec: the legacy virtual machine's scancode constants
(`AGS3::__allegro_KEY_*`, declared outside the two source files).  The
spec requires "the full keycode→scancode table" to be an explicit
one-to-one enumeration; the values follow the classic allegro keyboard
layout (distinct constants for every distinct named key).
-/

def allegro_KEY_A : Nat := 1
def allegro_KEY_0 : Nat := 27
def allegro_KEY_0_PAD : Nat := 37
def allegro_KEY_F1 : Nat := 47
def allegro_KEY_ESC : Nat := 59
def allegro_KEY_TILDE : Nat := 60
def allegro_KEY_MINUS : Nat := 61
def allegro_KEY_EQUALS : Nat := 62
def allegro_KEY_BACKSPACE : Nat := 63
def allegro_KEY_TAB : Nat := 64
def allegro_KEY_OPENBRACE : Nat := 65
def allegro_KEY_CLOSEBRACE : Nat := 66
def allegro_KEY_ENTER : Nat := 67
def allegro_KEY_COLON : Nat := 68
def allegro_KEY_QUOTE : Nat := 69
def allegro_KEY_BACKSLASH : Nat := 70
def allegro_KEY_COMMA : Nat := 72
def allegro_KEY_SLASH : Nat := 74
def allegro_KEY_SPACE : Nat := 75
def allegro_KEY_INSERT : Nat := 76
def allegro_KEY_DEL : Nat := 77
def allegro_KEY_HOME : Nat := 78
def allegro_KEY_END : Nat := 79
def allegro_KEY_PGUP : Nat := 80
def allegro_KEY_PGDN : Nat := 81
def allegro_KEY_LEFT : Nat := 82
def allegro_KEY_RIGHT : Nat := 83
def allegro_KEY_UP : Nat := 84
def allegro_KEY_DOWN : Nat := 85
def allegro_KEY_SLASH_PAD : Nat := 86
def allegro_KEY_ASTERISK : Nat := 87
def allegro_KEY_MINUS_PAD : Nat := 88
def allegro_KEY_PLUS_PAD : Nat := 89
def allegro_KEY_DEL_PAD : Nat := 90
def allegro_KEY_ENTER_PAD : Nat := 91
def allegro_KEY_PRTSCR : Nat := 92
def allegro_KEY_PAUSE : Nat := 93
def allegro_KEY_SEMICOLON : Nat := 105
def allegro_KEY_LSHIFT : Nat := 115
def allegro_KEY_RSHIFT : Nat := 116
def allegro_KEY_LCONTROL : Nat := 117
def allegro_KEY_RCONTROL : Nat := 118
def allegro_KEY_ALT : Nat := 119
def allegro_KEY_SCRLOCK : Nat := 124
def allegro_KEY_NUMLOCK : Nat := 125
def allegro_KEY_CAPSLOCK : Nat := 126

/-- Modelled from the spec: the fixed extended-key marker constant
(`EXTENDED_KEY_CODE`, defined in a header outside the two source files)
that `readKey` ORs into the low byte of its return value for keys of the
extended set.  The legacy convention encodes extended keys with a zero
low byte followed by the scancode in the high byte. -/
def EXTENDED_KEY_CODE : Nat := 0

/-! ## Host event records (`Common::KeyState`, `Common::Event`) -/

/-- Modifier-flag component of a host key state (`Common::KeyState::flags`),
modelled as one Boolean per flag bit of the host bitmask. -/
structure ModFlags where
  ctrl : Bool
  alt : Bool
  shift : Bool
  meta : Bool
  num : Bool
  caps : Bool
  scrl : Bool
deriving DecidableEq

/-- A host key state (`Common::KeyState`): keycode, character payload and
modifier flags. -/
structure KeyState where
  keycode : Nat
  ascii : Nat
  flags : ModFlags
deriving DecidableEq

/-- A host event (`Common::Event`), restricted to the event types the
translator distinguishes.  The joystick indices are `Fin 32`, reflecting
the asserted index contract of `pollEvents`.  `otherEvent` stands for any
event type not handled by a dedicated `switch` case other than mouse
moves. -/
inductive Event where
  | quit
  | returnToLauncher
  | joyAxisMotion (axis : Fin 32) (position : Int)
  | joyButtonDown (button : Fin 32)
  | joyButtonUp (button : Fin 32)
  | keyDown (kbd : KeyState)
  | keyUp (kbd : KeyState)
  | mouseMove (x : Int) (y : Int)
  | otherEvent
deriving DecidableEq

/-- Whether an event is a mouse move (`e.type == Common::EVENT_MOUSEMOVE`). -/
def isMouseMove : Event → Bool
  | .mouseMove _ _ => true
  | _ => false

/-! ## `EventsManager` (src/engines/ags/events.cpp) -/

/-- The translator's state: the pressed-key table `_keys` (indexed by
legacy scancode), the pending key FIFO `_pendingKeys`, the pending event
FIFO `_pendingEvents`, the joystick arrays, and the process-wide exit
flags set by quit events. -/
structure EventsManager where
  keys : Nat → Bool
  pendingKeys : List KeyState
  pendingEvents : List Event
  joystickAxis : Fin 32 → Int
  joystickButton : Fin 32 → Bool
  wantExit : Bool
  abortEngine : Bool
  checkDynamicSpritesAtExit : Bool

/-- The freshly constructed manager: key table cleared, queues empty,
joystick arrays zeroed (`EventsManager::EventsManager`). -/
def initMgr : EventsManager where
  keys := fun _ => false
  pendingKeys := []
  pendingEvents := []
  joystickAxis := fun _ => 0
  joystickButton := fun _ => false
  wantExit := false
  abortEngine := false
  checkDynamicSpritesAtExit := true

/-- `EventsManager::isModifierKey`. -/
def isModifierKey (keycode : Nat) : Bool :=
  keycode = KEYCODE_LCTRL || keycode = KEYCODE_LALT
    || keycode = KEYCODE_RCTRL || keycode = KEYCODE_RALT
    || keycode = KEYCODE_LSHIFT || keycode = KEYCODE_RSHIFT
    || keycode = KEYCODE_LSUPER || keycode = KEYCODE_RSUPER
    || keycode = KEYCODE_CAPSLOCK || keycode = KEYCODE_NUMLOCK
    || keycode = KEYCODE_SCROLLOCK

/-- The `EXTENDED_KEYS` array of `EventsManager::isExtendedKey`,
terminated by the `KEYCODE_INVALID` sentinel. -/
def EXTENDED_KEYS : List Nat :=
  [KEYCODE_F1, KEYCODE_F2, KEYCODE_F3,
   KEYCODE_F4, KEYCODE_F5, KEYCODE_F6,
   KEYCODE_F7, KEYCODE_F8, KEYCODE_F9,
   KEYCODE_F10, KEYCODE_F11, KEYCODE_F12,
   KEYCODE_KP0, KEYCODE_KP1, KEYCODE_KP2,
   KEYCODE_KP3, KEYCODE_KP4, KEYCODE_KP5,
   KEYCODE_KP6, KEYCODE_KP7, KEYCODE_KP8,
   KEYCODE_KP9, KEYCODE_KP_PERIOD,
   KEYCODE_INSERT, KEYCODE_DELETE,
   KEYCODE_HOME, KEYCODE_END,
   KEYCODE_PAGEUP, KEYCODE_PAGEDOWN,
   KEYCODE_LEFT, KEYCODE_RIGHT,
   KEYCODE_UP, KEYCODE_DOWN,
   KEYCODE_INVALID]

/-- The sentinel-terminated scan loop of `EventsManager::isExtendedKey`:
walk the array until `KEYCODE_INVALID`, returning `true` on a match. -/
def scanExtendedKeys : List Nat → Nat → Bool
  | [], _ => false
  | kc :: rest, keycode =>
    if kc = KEYCODE_INVALID then false
    else if keycode = kc then true
    else scanExtendedKeys rest keycode

/-- `EventsManager::isExtendedKey`. -/
def isExtendedKey (keycode : Nat) : Bool :=
  scanExtendedKeys EXTENDED_KEYS keycode

/-- `EventsManager::getScancode`: four contiguous ranges mapped by
constant offset, then the explicit `switch` table, else 0. -/
def getScancode (keycode : Nat) : Nat :=
  if KEYCODE_a ≤ keycode ∧ keycode ≤ KEYCODE_z then
    keycode - KEYCODE_a + allegro_KEY_A
  else if KEYCODE_0 ≤ keycode ∧ keycode ≤ KEYCODE_9 then
    keycode - KEYCODE_0 + allegro_KEY_0
  else if KEYCODE_KP0 ≤ keycode ∧ keycode ≤ KEYCODE_KP9 then
    keycode - KEYCODE_KP0 + allegro_KEY_0_PAD
  else if KEYCODE_F1 ≤ keycode ∧ keycode ≤ KEYCODE_F12 then
    keycode - KEYCODE_F1 + allegro_KEY_F1
  else if keycode = KEYCODE_ESCAPE then allegro_KEY_ESC
  else if keycode = KEYCODE_TILDE then allegro_KEY_TILDE
  else if keycode = KEYCODE_MINUS then allegro_KEY_MINUS
  else if keycode = KEYCODE_EQUALS then allegro_KEY_EQUALS
  else if keycode = KEYCODE_BACKSPACE then allegro_KEY_BACKSPACE
  else if keycode = KEYCODE_TAB then allegro_KEY_TAB
  else if keycode = KEYCODE_LEFTBRACKET then allegro_KEY_OPENBRACE
  else if keycode = KEYCODE_RIGHTBRACKET then allegro_KEY_CLOSEBRACE
  else if keycode = KEYCODE_RETURN then allegro_KEY_ENTER
  else if keycode = KEYCODE_COLON then allegro_KEY_COLON
  else if keycode = KEYCODE_QUOTE then allegro_KEY_QUOTE
  else if keycode = KEYCODE_BACKSLASH then allegro_KEY_BACKSLASH
  else if keycode = KEYCODE_COMMA then allegro_KEY_COMMA
  else if keycode = KEYCODE_SLASH then allegro_KEY_SLASH
  else if keycode = KEYCODE_SPACE then allegro_KEY_SPACE
  else if keycode = KEYCODE_INSERT then allegro_KEY_INSERT
  else if keycode = KEYCODE_DELETE then allegro_KEY_DEL
  else if keycode = KEYCODE_HOME then allegro_KEY_HOME
  else if keycode = KEYCODE_END then allegro_KEY_END
  else if keycode = KEYCODE_PAGEUP then allegro_KEY_PGUP
  else if keycode = KEYCODE_PAGEDOWN then allegro_KEY_PGDN
  else if keycode = KEYCODE_LEFT then allegro_KEY_LEFT
  else if keycode = KEYCODE_RIGHT then allegro_KEY_RIGHT
  else if keycode = KEYCODE_UP then allegro_KEY_UP
  else if keycode = KEYCODE_DOWN then allegro_KEY_DOWN
  else if keycode = KEYCODE_KP_DIVIDE then allegro_KEY_SLASH_PAD
  else if keycode = KEYCODE_ASTERISK then allegro_KEY_ASTERISK
  else if keycode = KEYCODE_KP_MINUS then allegro_KEY_MINUS_PAD
  else if keycode = KEYCODE_KP_PLUS then allegro_KEY_PLUS_PAD
  else if keycode = KEYCODE_KP_PERIOD then allegro_KEY_DEL_PAD
  else if keycode = KEYCODE_KP_ENTER then allegro_KEY_ENTER_PAD
  else if keycode = KEYCODE_PRINT then allegro_KEY_PRTSCR
  else if keycode = KEYCODE_PAUSE then allegro_KEY_PAUSE
  else if keycode = KEYCODE_SEMICOLON then allegro_KEY_SEMICOLON
  else if keycode = KEYCODE_LSHIFT then allegro_KEY_LSHIFT
  else if keycode = KEYCODE_RSHIFT then allegro_KEY_RSHIFT
  else if keycode = KEYCODE_LCTRL then allegro_KEY_LCONTROL
  else if keycode = KEYCODE_RCTRL then allegro_KEY_RCONTROL
  else if keycode = KEYCODE_LALT then allegro_KEY_ALT
  else if keycode = KEYCODE_RALT then allegro_KEY_ALT
  else if keycode = KEYCODE_SCROLLOCK then allegro_KEY_SCRLOCK
  else if keycode = KEYCODE_NUMLOCK then allegro_KEY_NUMLOCK
  else if keycode = KEYCODE_CAPSLOCK then allegro_KEY_CAPSLOCK
  else 0

/-- `EventsManager::updateKeys`: record the key's up/down state in the
key table, but only when the keycode maps to a nonzero scancode. -/
def updateKeys (m : EventsManager) (keyState : KeyState) (isDown : Bool) :
    EventsManager :=
  let scancode := getScancode keyState.keycode
  if scancode ≠ 0 then
    { m with keys := fun i => if i = scancode then isDown else m.keys i }
  else m

/-- Whether the tail (most recently queued entry) of the pending event
queue is a mouse move (`_pendingEvents.back().type == EVENT_MOUSEMOVE`). -/
def tailIsMouseMove (q : List Event) : Bool :=
  match q.getLast? with
  | some x => isMouseMove x
  | none => false

/-- The default branch of `pollEvents`: push the event onto the pending
event queue, except that a mouse move arriving while the tail is already
a mouse move replaces that tail. -/
def pushEvent (q : List Event) (e : Event) : List Event :=
  if isMouseMove e && !q.isEmpty && tailIsMouseMove q then
    q.dropLast ++ [e]
  else
    q ++ [e]

/-- One iteration of the `switch` inside `EventsManager::pollEvents`. -/
def processEvent (m : EventsManager) (e : Event) : EventsManager :=
  match e with
  | .quit | .returnToLauncher =>
    { m with wantExit := true, abortEngine := true,
             checkDynamicSpritesAtExit := false }
  | .joyAxisMotion axis pos =>
    { m with joystickAxis := fun i => if i = axis then pos else m.joystickAxis i }
  | .joyButtonDown b =>
    { m with joystickButton := fun i => if i = b then true else m.joystickButton i }
  | .joyButtonUp b =>
    { m with joystickButton := fun i => if i = b then false else m.joystickButton i }
  | .keyDown kbd =>
    let m1 := updateKeys m kbd true
    if isModifierKey kbd.keycode then m1
    else { m1 with pendingKeys := m1.pendingKeys ++ [kbd] }
  | .keyUp kbd => updateKeys m kbd false
  | e => { m with pendingEvents := pushEvent m.pendingEvents e }

/-- Draining the whole host stream through the `switch`, in arrival
order (the `while pollEvent` loop of `EventsManager::pollEvents`). -/
def pollEventsList (m : EventsManager) (evs : List Event) : EventsManager :=
  evs.foldl processEvent m

/-- A manager together with the not-yet-polled host event stream. -/
structure World where
  host : List Event
  mgr : EventsManager

/-- `EventsManager::pollEvents`: consume every available host event. -/
def pollEvents (w : World) : World :=
  { host := [], mgr := pollEventsList w.mgr w.host }

/-- The legacy composite code `readKey` builds for one popped key state:
`(scancode << 8)` ORed with the payload chosen by priority (extended-key
marker, else ascii when no ctrl/alt is held, else the scancode). -/
def encodeKey (keyState : KeyState) : Nat :=
  let scancode := getScancode keyState.keycode
  let code := scancode <<< 8
  if isExtendedKey keyState.keycode then code ||| EXTENDED_KEY_CODE
  else if keyState.flags.ctrl = false ∧ keyState.flags.alt = false then
    code ||| keyState.ascii
  else code ||| scancode

/-- `EventsManager::readKey`: poll, return 0 on an empty queue, else pop
the oldest pending key and encode it. -/
def readKey (w : World) : Nat × World :=
  let w1 := pollEvents w
  match w1.mgr.pendingKeys with
  | [] => (0, w1)
  | keyState :: rest =>
    (encodeKey keyState, { w1 with mgr := { w1.mgr with pendingKeys := rest } })

/-- `EventsManager::keypressed`: poll, then report whether a key is
pending. -/
def keypressed (w : World) : Bool × World :=
  let w1 := pollEvents w
  (!w1.mgr.pendingKeys.isEmpty, w1)

/-- `EventsManager::readEvent`: poll, then pop the oldest pending
non-keyboard event if any. -/
def readEvent (w : World) : Option Event × World :=
  let w1 := pollEvents w
  match w1.mgr.pendingEvents with
  | [] => (none, w1)
  | e :: rest => (some e, { w1 with mgr := { w1.mgr with pendingEvents := rest } })

/-- `EventsManager::isKeyPressed`: look the scancode up in the key table. -/
def isKeyPressed (m : EventsManager) (keycode : Nat) : Bool :=
  m.keys keycode

/-- The results of `n` successive `readKey` calls, threading the world. -/
def readKeySeq (w : World) : Nat → List Nat
  | 0 => []
  | n + 1 =>
    let r := readKey w
    r.1 :: readKeySeq r.2 n

/-! ## `EditableWidget` (src/gui/widgets/editable.cpp)

The widget's text buffer is a sequence of character codes (the host
string class stores 32-bit characters).  The host string primitives
`insertChar`, `deleteChar` and `setChar` assert that their index is in
range; an assertion failure is modelled as `none`, so a `some` result of
any operation below corresponds to a run of the C++ code in which no
assertion fired. -/

/-- Modelled from the spec: the host string class's `insertChar`
(defined outside the two source files) — insert `c` before position
`p`, valid for `p ≤ length`. -/
def insertChar (s : List Nat) (c : Nat) (p : Nat) : Option (List Nat) :=
  if p ≤ s.length then some (s.take p ++ c :: s.drop p) else none

/-- Modelled from the spec: the host string class's `deleteChar`
(defined outside the two source files) — remove the character at
position `p`, valid for `p < length`. -/
def deleteChar (s : List Nat) (p : Nat) : Option (List Nat) :=
  if p < s.length then some (s.take p ++ s.drop (p + 1)) else none

/-- Modelled from the spec: the host string class's `setChar` (defined
outside the two source files) — overwrite the character at position
`p`, valid for `p < length`. -/
def setChar (s : List Nat) (c : Nat) (p : Nat) : Option (List Nat) :=
  if p < s.length then some (s.set p c) else none

/-- Modelled from the spec: the whitespace test used by the host
string's `trim` (defined outside the two source files). -/
def isSpaceChar (c : Nat) : Bool :=
  c = 32 || c = 9 || c = 10 || c = 11 || c = 12 || c = 13

/-- Modelled from the spec: the host string class's `trim` (defined
outside the two source files) — drop leading and trailing whitespace,
as the paste handler applies to clipboard text. -/
def trimString (s : List Nat) : List Nat :=
  ((s.dropWhile isSpaceChar).reverse.dropWhile isSpaceChar).reverse

/-- The measurement / host-service collaborators of the widget: font
metrics (`g_gui.getCharWidth`, `g_gui.getStringWidth`), the edit
rectangle width (`getEditRect().width()`), and the host clipboard
(`g_system->hasTextInClipboard` / `getTextFromClipboard`; `none` means
the clipboard holds no text). -/
structure GuiEnv where
  charWidth : Nat → Int
  stringWidth : List Nat → Int
  editWidth : Int
  clipboard : Option (List Nat)

/-- The widget state mutated by `handleKeyDown`: buffer, caret,
selection (highlight) fields, horizontal scroll offset, plus the
enabled flag and the notification command id `_cmd`. -/
structure EditableWidget where
  editString : List Nat
  caretPos : Nat
  highlightVisible : Bool
  highlightPos : Nat
  highlightSize : Int
  highlightCharacterCount : Nat
  highlightString : List Nat
  editScrollOffset : Int
  enabled : Bool
  cmd : Nat
deriving DecidableEq

/-- `EditableWidget::getCaretOffset`: pixel width of the text before the
caret, minus the scroll offset. -/
def getCaretOffset (env : GuiEnv) (w : EditableWidget) : Int :=
  env.stringWidth (w.editString.take w.caretPos) - w.editScrollOffset

/-- `EditableWidget::getHighlightOffset`: pixel width of the text before
the selection start, minus the scroll offset. -/
def getHighlightOffset (env : GuiEnv) (w : EditableWidget) : Int :=
  env.stringWidth (w.editString.take w.highlightPos) - w.editScrollOffset

/-- The new `_editScrollOffset` value and the Boolean result computed by
`EditableWidget::adjustOffset` (that routine mutates no other field). -/
def adjustOffsetValue (env : GuiEnv) (w : EditableWidget) : Int × Bool :=
  let caretpos := getCaretOffset env w
  let editWidth := env.editWidth
  if w.highlightVisible then
    let highlightpos := getHighlightOffset env w
    if highlightpos < 1 then
      (w.editScrollOffset + highlightpos, true)
    else if highlightpos ≥ editWidth then
      (w.editScrollOffset - (editWidth - highlightpos), true)
    else (w.editScrollOffset, false)
  else
    if caretpos < 0 then
      (w.editScrollOffset + caretpos, true)
    else if caretpos ≥ editWidth then
      (w.editScrollOffset - (editWidth - caretpos), true)
    else if w.editScrollOffset > 0 then
      let strWidth := env.stringWidth w.editString
      if strWidth - w.editScrollOffset < editWidth then
        let off := strWidth - editWidth
        (if off < 0 then 0 else off, false)
      else (w.editScrollOffset, false)
    else (w.editScrollOffset, false)

/-- `EditableWidget::adjustOffset`: keep the caret (or, while a
selection is visible, the selection boundary) inside the visible field,
adjusting only `_editScrollOffset`; returns whether a scroll happened. -/
def adjustOffset (env : GuiEnv) (w : EditableWidget) : EditableWidget × Bool :=
  ({ w with editScrollOffset := (adjustOffsetValue env w).1 },
   (adjustOffsetValue env w).2)

/-- `EditableWidget::setCaretPos`: assert the new position is within the
buffer, store it, and adjust the scroll offset. -/
def setCaretPos (env : GuiEnv) (w : EditableWidget) (newPos : Nat) :
    Option (EditableWidget × Bool) :=
  if newPos ≤ w.editString.length then
    some (adjustOffset env { w with caretPos := newPos })
  else none

/-- `EditableWidget::initHighlight`: disable the highlight, refill the
shadow string with blanks up to the caret, and reset the selection run
to the caret with zero selected characters. -/
def initHighlight (w : EditableWidget) : EditableWidget :=
  { w with highlightVisible := false,
           highlightString := List.replicate w.caretPos 32,
           highlightPos := w.caretPos,
           highlightSize := 0,
           highlightCharacterCount := 0 }

/-- `EditableWidget::tryInsertChar`: insert the byte at `pos` when it is
printable ASCII (32–127) or at least 160; report acceptance. -/
def tryInsertChar (w : EditableWidget) (c : Nat) (pos : Nat) :
    Option (EditableWidget × Bool) :=
  if (32 ≤ c ∧ c ≤ 127) ∨ 160 ≤ c then
    (insertChar w.editString c pos).map (fun s => ({ w with editString := s }, true))
  else some (w, false)

/-- The highlighted-run removal loop shared by the Backspace, Delete and
default-insert handlers: delete `n` characters from both the edit string
and the shadow string, walking indices `base + n - 1` down to `base`. -/
def deleteRun (es hs : List Nat) (base : Nat) : Nat → Option (List Nat × List Nat)
  | 0 => some (es, hs)
  | n + 1 =>
    match deleteChar es (base + n), deleteChar hs (base + n) with
    | some es2, some hs2 => deleteRun es2 hs2 base n
    | _, _ => none

/-- The observable outcome of one `handleKeyDown` call: the new widget
state, the `sendCommand` notifications fired (in order), the local
`dirty` / `forcecaret` flags that trigger `markAsDirty` /
`makeCaretVisible`, the return value `handled`, whether the
edit-mode callbacks ran, and any clipboard write. -/
structure KeyDownOut where
  widget : EditableWidget
  sends : List (Nat × Nat)
  dirty : Bool
  forcecaret : Bool
  handled : Bool
  endEditCalled : Bool
  abortEditCalled : Bool
  clipboardSet : Option (List Nat)
deriving DecidableEq

/-- Outcome with no notifications and no side effects, `handled = true`:
the starting point every dispatch branch edits. -/
def baseOut (w : EditableWidget) : KeyDownOut :=
  { widget := w, sends := [], dirty := false, forcecaret := false,
    handled := true, endEditCalled := false, abortEditCalled := false,
    clipboardSet := none }

/-- The Return / keypad-Enter branch: clear the selection, leave edit
mode via `endEditMode`, mark dirty. -/
def doReturnKey (w : EditableWidget) : KeyDownOut :=
  { baseOut (initHighlight w) with dirty := true, endEditCalled := true }

/-- The Escape branch: clear the selection, leave edit mode via
`abortEditMode`, mark dirty. -/
def doEscapeKey (w : EditableWidget) : KeyDownOut :=
  { baseOut (initHighlight w) with dirty := true, abortEditCalled := true }

/-- The Backspace branch: delete the highlighted run (caret to its
start) or, without a selection, the character before the caret; notify
on either edit; always force the caret visible. -/
def doBackspace (env : GuiEnv) (w : EditableWidget) : Option KeyDownOut :=
  if w.highlightVisible then
    match deleteRun w.editString w.highlightString w.highlightPos
        w.highlightCharacterCount with
    | none => none
    | some (es, hs) =>
      match setCaretPos env { w with editString := es, highlightString := hs }
          w.highlightPos with
      | none => none
      | some (w2, _) =>
        some { baseOut (initHighlight w2) with
               sends := [(w.cmd, 0)], dirty := true, forcecaret := true }
  else if 0 < w.caretPos then
    match deleteChar w.editString (w.caretPos - 1) with
    | none => none
    | some es =>
      some { baseOut (initHighlight
               { w with caretPos := w.caretPos - 1, editString := es }) with
             sends := [(w.cmd, 0)], dirty := true, forcecaret := true }
  else
    some { baseOut w with forcecaret := true }

/-- The Delete branch: like Backspace but removes the character at the
caret when no selection is active. -/
def doDeleteKey (env : GuiEnv) (w : EditableWidget) : Option KeyDownOut :=
  if w.highlightVisible then
    match deleteRun w.editString w.highlightString w.highlightPos
        w.highlightCharacterCount with
    | none => none
    | some (es, hs) =>
      match setCaretPos env { w with editString := es, highlightString := hs }
          w.highlightPos with
      | none => none
      | some (w2, _) =>
        some { baseOut (initHighlight w2) with
               sends := [(w.cmd, 0)], dirty := true, forcecaret := true }
  else if w.caretPos < w.editString.length then
    match deleteChar w.editString w.caretPos with
    | none => none
    | some es =>
      some { baseOut (initHighlight { w with editString := es }) with
             sends := [(w.cmd, 0)], dirty := true, forcecaret := true }
  else
    some { baseOut w with forcecaret := true }

/-- The Down / End branch: clear the selection and move the caret to the
end of the buffer (no notification). -/
def doDownEnd (env : GuiEnv) (w : EditableWidget) : Option KeyDownOut :=
  match setCaretPos env (initHighlight w) (initHighlight w).editString.length with
  | none => none
  | some (w2, _) =>
    some { baseOut w2 with dirty := true, forcecaret := true }

/-- The Left branch: with shift, turn the highlight visible and (when
the selection start is positive) grow the selection one character to the
left, mirroring the selected character into the shadow string; without
shift, move the caret left when possible and notify.  `dirty` and
`forcecaret` are set afterwards in every case. -/
def doLeft (env : GuiEnv) (w : EditableWidget) (state : KeyState) :
    Option KeyDownOut :=
  if state.flags.shift then
    if 0 < w.highlightPos then
      match w.editString.get? (w.highlightPos - 1) with
      | none => none
      | some ch =>
        match setChar w.highlightString ch (w.highlightPos - 1) with
        | none => none
        | some hs =>
          some { baseOut { w with
                     highlightVisible := true,
                     highlightPos := w.highlightPos - 1,
                     highlightCharacterCount := w.highlightCharacterCount + 1,
                     highlightSize := w.highlightSize + env.charWidth ch,
                     highlightString := hs } with
                 dirty := true, forcecaret := true }
    else
      some { baseOut { w with highlightVisible := true } with
             dirty := true, forcecaret := true }
  else if 0 < w.caretPos then
    match setCaretPos env w (w.caretPos - 1) with
    | none => none
    | some (w2, _) =>
      some { baseOut (initHighlight w2) with
             sends := [(w.cmd, 0)], dirty := true, forcecaret := true }
  else
    some { baseOut w with dirty := true, forcecaret := true }

/-- The Right branch: move the caret right when possible (clearing the
selection and notifying), then unconditionally clear the selection and
notify again — the notification fires even when the caret was already at
the end. -/
def doRight (env : GuiEnv) (w : EditableWidget) : Option KeyDownOut :=
  if w.caretPos < w.editString.length then
    match setCaretPos env w (w.caretPos + 1) with
    | none => none
    | some (w2, _) =>
      some { baseOut (initHighlight (initHighlight w2)) with
             sends := [(w.cmd, 0), (w.cmd, 0)], dirty := true, forcecaret := true }
  else
    some { baseOut (initHighlight w) with
           sends := [(w.cmd, 0)], dirty := true, forcecaret := true }

/-- The Up / Home branch: clear the selection, move the caret to
position 0 and notify. -/
def doUpHome (env : GuiEnv) (w : EditableWidget) : Option KeyDownOut :=
  match setCaretPos env (initHighlight w) 0 with
  | none => none
  | some (w2, _) =>
    some { baseOut w2 with
           sends := [(w.cmd, 0)], dirty := true, forcecaret := true }

/-- `EditableWidget::defaultKeyDownHandler`: insert the typed character
when its low byte is acceptable, replacing the selected run first when a
selection is visible; notify on an accepted insert; mark the event
unhandled when no selection is visible and the character is rejected. -/
def defaultKeyDownHandler (env : GuiEnv) (w : EditableWidget)
    (state : KeyState) : Option KeyDownOut :=
  if w.highlightVisible then
    if state.ascii < 256 then
      match tryInsertChar w (state.ascii % 256) w.caretPos with
      | none => none
      | some (w1, accepted) =>
        if accepted then
          match deleteRun w1.editString w1.highlightString w1.highlightPos
              w1.highlightCharacterCount with
          | none => none
          | some (es, hs) =>
            match setCaretPos env { w1 with editString := es, highlightString := hs }
                (w1.highlightPos + 1) with
            | none => none
            | some (w2, _) =>
              some { baseOut (initHighlight w2) with
                     sends := [(w.cmd, 0)], dirty := true, forcecaret := true }
        else some (baseOut w1)
    else some (baseOut w)
  else if state.ascii < 256 then
    match tryInsertChar w (state.ascii % 256) w.caretPos with
    | none => none
    | some (w1, accepted) =>
      if accepted then
        some { baseOut (initHighlight
                 { w1 with caretPos := w1.caretPos + 1 }) with
               sends := [(w.cmd, 0)], dirty := true, forcecaret := true }
      else some { baseOut w1 with handled := false }
  else some { baseOut w with handled := false }

/-- The per-character paste loop: try each clipboard character's low
byte at the caret, advancing the caret for every accepted character and
silently skipping rejected ones. -/
def pasteChars (w : EditableWidget) : List Nat → Option EditableWidget
  | [] => some w
  | c :: rest =>
    match tryInsertChar w (c % 256) w.caretPos with
    | none => none
    | some (w1, accepted) =>
      pasteChars (if accepted then { w1 with caretPos := w1.caretPos + 1 } else w1)
        rest

/-- The `v` key branch: with ctrl and a non-empty host clipboard, clear
the selection, trim the clipboard text and paste it character by
character (marking dirty but sending no notification); without ctrl,
fall through to the default insert handler. -/
def doPasteKey (env : GuiEnv) (w : EditableWidget) (state : KeyState) :
    Option KeyDownOut :=
  if state.flags.ctrl then
    match env.clipboard with
    | some raw =>
      match pasteChars (initHighlight w) (trimString raw) with
      | none => none
      | some w2 => some { baseOut w2 with dirty := true }
    | none => some (baseOut w)
  else defaultKeyDownHandler env w state

/-- The `c` key branch: with ctrl, write the buffer to the host
clipboard when non-empty (no state change); without ctrl, fall through
to the default insert handler. -/
def doCopyKey (env : GuiEnv) (w : EditableWidget) (state : KeyState) :
    Option KeyDownOut :=
  if state.flags.ctrl then
    if w.editString ≠ [] then
      some { baseOut w with clipboardSet := some w.editString }
    else some (baseOut w)
  else defaultKeyDownHandler env w state

/-- The numeric-keypad remap table of `handleKeyDown` (applied when num
lock is not active). -/
def kpRemapTable : List Nat :=
  [KEYCODE_INSERT, KEYCODE_END, KEYCODE_DOWN, KEYCODE_PAGEDOWN, KEYCODE_LEFT,
   KEYCODE_INVALID, KEYCODE_RIGHT, KEYCODE_HOME, KEYCODE_UP, KEYCODE_PAGEUP,
   KEYCODE_DELETE]

/-- The keypad remap step of `handleKeyDown`: when num lock is off and
the keycode lies in the contiguous keypad block, replace it by its
navigation equivalent. -/
def remapNumPad (state : KeyState) : KeyState :=
  if state.flags.num = false ∧ KEYCODE_KP0 ≤ state.keycode
      ∧ state.keycode ≤ KEYCODE_KP_PERIOD then
    { state with keycode := kpRemapTable.getD (state.keycode - KEYCODE_KP0)
                              KEYCODE_INVALID }
  else state

/-- The `switch (state.keycode)` of `EditableWidget::handleKeyDown`
(after the keypad remap).  The platform-conditional ctrl+a / ctrl+e
shortcuts are compiled out on the platforms this build targets and are
not modelled. -/
def dispatchKey (env : GuiEnv) (w : EditableWidget) (state : KeyState) :
    Option KeyDownOut :=
  if state.keycode = KEYCODE_RETURN ∨ state.keycode = KEYCODE_KP_ENTER then
    some (doReturnKey w)
  else if state.keycode = KEYCODE_ESCAPE then some (doEscapeKey w)
  else if state.keycode = KEYCODE_BACKSPACE then doBackspace env w
  else if state.keycode = KEYCODE_DELETE then doDeleteKey env w
  else if state.keycode = KEYCODE_DOWN ∨ state.keycode = KEYCODE_END then
    doDownEnd env w
  else if state.keycode = KEYCODE_LEFT then doLeft env w state
  else if state.keycode = KEYCODE_RIGHT then doRight env w
  else if state.keycode = KEYCODE_UP ∨ state.keycode = KEYCODE_HOME then
    doUpHome env w
  else if state.keycode = KEYCODE_v then doPasteKey env w state
  else if state.keycode = KEYCODE_c then doCopyKey env w state
  else defaultKeyDownHandler env w state

/-- `EditableWidget::handleKeyDown`: reject input while disabled
(returning unhandled), otherwise remap the keypad and dispatch.  The
caret-drawing steps are visual side effects carried by the `dirty` and
`forcecaret` fields of the outcome. -/
def handleKeyDown (env : GuiEnv) (w : EditableWidget) (state0 : KeyState) :
    Option KeyDownOut :=
  if w.enabled = false then some { baseOut w with handled := false }
  else dispatchKey env w (remapNumPad state0)

/-! ## Derived definitions used by the statements below -/

/-- The host keycodes `getScancode` maps to a nonzero scancode: the four
contiguous ranges (`a`–`z`, `0`–`9`, keypad `0`–`9`, `F1`–`F12`) together
with the keys of the explicit `switch` table. -/
def mappedKeycodes : List Nat :=
  [8, 9, 13, 19, 27, 32, 39, 42, 44, 45, 47,
   48, 49, 50, 51, 52, 53, 54, 55, 56, 57, 58, 59, 61, 91, 92, 93,
   97, 98, 99, 100, 101, 102, 103, 104, 105, 106, 107, 108, 109, 110,
   111, 112, 113, 114, 115, 116, 117, 118, 119, 120, 121, 122, 126, 127,
   256, 257, 258, 259, 260, 261, 262, 263, 264, 265, 266, 267, 269, 270, 271,
   273, 274, 275, 276, 277, 278, 279, 280, 281,
   282, 283, 284, 285, 286, 287, 288, 289, 290, 291, 292, 293,
   300, 301, 302, 303, 304, 305, 306, 307, 308, 316]

/-- The mouse-move coalescing invariant of the pending event queue: no
two consecutive entries are both mouse moves. -/
def noConsecMM (l : List Event) : Prop :=
  l.Chain' (fun a b => ¬(isMouseMove a = true ∧ isMouseMove b = true))

/-! ## Supporting lemmas -/

theorem getScancode_eq_zero_of_ge (k : Nat) (h : 317 ≤ k) : getScancode k = 0 := by
  unfold getScancode
  unfold KEYCODE_a KEYCODE_z KEYCODE_0 KEYCODE_9 KEYCODE_KP0 KEYCODE_KP9 KEYCODE_F1 KEYCODE_F12
  unfold KEYCODE_ESCAPE KEYCODE_TILDE KEYCODE_MINUS KEYCODE_EQUALS KEYCODE_BACKSPACE KEYCODE_TAB
  unfold KEYCODE_LEFTBRACKET KEYCODE_RIGHTBRACKET KEYCODE_RETURN KEYCODE_COLON KEYCODE_QUOTE
  unfold KEYCODE_BACKSLASH KEYCODE_COMMA KEYCODE_SLASH KEYCODE_SPACE KEYCODE_INSERT KEYCODE_DELETE
  unfold KEYCODE_HOME KEYCODE_END KEYCODE_PAGEUP KEYCODE_PAGEDOWN KEYCODE_LEFT KEYCODE_RIGHT
  unfold KEYCODE_UP KEYCODE_DOWN KEYCODE_KP_DIVIDE KEYCODE_ASTERISK KEYCODE_KP_MINUS KEYCODE_KP_PLUS
  unfold KEYCODE_KP_PERIOD KEYCODE_KP_ENTER KEYCODE_PRINT KEYCODE_PAUSE KEYCODE_SEMICOLON
  unfold KEYCODE_LSHIFT KEYCODE_RSHIFT KEYCODE_LCTRL KEYCODE_RCTRL KEYCODE_LALT KEYCODE_RALT
  unfold KEYCODE_SCROLLOCK KEYCODE_NUMLOCK KEYCODE_CAPSLOCK
  repeat rw [if_neg (by omega)]

theorem getScancode_mem_range_scan :
    ∀ k ∈ List.range 317, getScancode k = 0 ∨ k ∈ mappedKeycodes := by decide

theorem mem_mappedKeycodes (k : Nat) (h : getScancode k ≠ 0) : k ∈ mappedKeycodes := by
  by_cases hk : k < 317
  · rcases getScancode_mem_range_scan k (List.mem_range.mpr hk) with h0 | hm
    · exact absurd h0 h
    · exact hm
  · exact absurd (getScancode_eq_zero_of_ge k (by omega)) h

theorem nodup_scancodes_except_ralt :
    ((mappedKeycodes.erase KEYCODE_RALT).map getScancode).Nodup := by decide

/-! ## Claim C2 — injectivity of the keycode→scancode mapping -/

/-- Claim C2 (counterexample): the mapping is not injective as claimed —
the two distinct host keycodes for left Alt and right Alt both map to
the same nonzero legacy scancode (`__allegro_KEY_ALT`), because the
`switch` in `getScancode` sends `KEYCODE_LALT` and `KEYCODE_RALT` to the
same constant. -/
theorem getScancode_collision_lalt_ralt :
    KEYCODE_LALT ≠ KEYCODE_RALT
    ∧ getScancode KEYCODE_LALT ≠ 0
    ∧ getScancode KEYCODE_RALT ≠ 0
    ∧ getScancode KEYCODE_LALT = getScancode KEYCODE_RALT := by decide

/-- Claim C2 (amended): the mapping is injective on mapped keycodes
except for the single left-Alt/right-Alt pair: whenever two host
keycodes map to the same nonzero scancode, they are equal or they are
both Alt keycodes. -/
theorem getScancode_injective_except_alt (k1 k2 : Nat)
    (h1 : getScancode k1 ≠ 0) (h2 : getScancode k2 ≠ 0)
    (heq : getScancode k1 = getScancode k2) :
    k1 = k2 ∨ ((k1 = KEYCODE_LALT ∨ k1 = KEYCODE_RALT)
               ∧ (k2 = KEYCODE_LALT ∨ k2 = KEYCODE_RALT)) := by
  have m1 := mem_mappedKeycodes k1 h1
  have m2 := mem_mappedKeycodes k2 h2
  have hlalt : KEYCODE_LALT ∈ mappedKeycodes.erase KEYCODE_RALT := by decide
  by_cases e1 : k1 = KEYCODE_RALT
  · by_cases e2 : k2 = KEYCODE_RALT
    · exact Or.inl (e1.trans e2.symm)
    · have hm2 : k2 ∈ mappedKeycodes.erase KEYCODE_RALT :=
        (List.mem_erase_of_ne e2).mpr m2
      have hval : getScancode k2 = getScancode KEYCODE_LALT := by
        rw [← heq, e1]; decide
      have hk2 : k2 = KEYCODE_LALT :=
        List.inj_on_of_nodup_map nodup_scancodes_except_ralt hm2 hlalt hval
      exact Or.inr ⟨Or.inr e1, Or.inl hk2⟩
  · by_cases e2 : k2 = KEYCODE_RALT
    · have hm1 : k1 ∈ mappedKeycodes.erase KEYCODE_RALT :=
        (List.mem_erase_of_ne e1).mpr m1
      have hval : getScancode k1 = getScancode KEYCODE_LALT := by
        rw [heq, e2]; decide
      have hk1 : k1 = KEYCODE_LALT :=
        List.inj_on_of_nodup_map nodup_scancodes_except_ralt hm1 hlalt hval
      exact Or.inr ⟨Or.inl hk1, Or.inr e2⟩
    · have hm1 : k1 ∈ mappedKeycodes.erase KEYCODE_RALT :=
        (List.mem_erase_of_ne e1).mpr m1
      have hm2 : k2 ∈ mappedKeycodes.erase KEYCODE_RALT :=
        (List.mem_erase_of_ne e2).mpr m2
      exact Or.inl (List.inj_on_of_nodup_map nodup_scancodes_except_ralt hm1 hm2 heq)

/-- Claim C2 (witness): the amended statement applied to the concrete
Alt collision pair. -/
theorem getScancode_injective_except_alt_witness :
    getScancode KEYCODE_LALT ≠ 0
    ∧ (KEYCODE_LALT = KEYCODE_RALT
       ∨ ((KEYCODE_LALT = KEYCODE_LALT ∨ KEYCODE_LALT = KEYCODE_RALT)
          ∧ (KEYCODE_RALT = KEYCODE_LALT ∨ KEYCODE_RALT = KEYCODE_RALT))) :=
  ⟨by decide,
   getScancode_injective_except_alt KEYCODE_LALT KEYCODE_RALT
     (by decide) (by decide) (by decide)⟩

/-! ## Claim C1 — the `readKey` encoding -/

/-- Claim C1: every key state popped by `readKey` is returned encoded as
`(scancode << 8) | payload` with the payload chosen by priority: the
extended-key marker when the keycode is in the extended set, else the
key's ascii code when neither ctrl nor alt is held, else the scancode
itself; the popped entry leaves the queue. -/
theorem readKey_encodes_popped_key (w : World) (k : KeyState) (rest : List KeyState)
    (h : (pollEvents w).mgr.pendingKeys = k :: rest) :
    (readKey w).1 = ((getScancode k.keycode) <<< 8) |||
        (if isExtendedKey k.keycode = true then EXTENDED_KEY_CODE
         else if k.flags.ctrl = false ∧ k.flags.alt = false then k.ascii
         else getScancode k.keycode)
    ∧ (readKey w).2.mgr.pendingKeys = rest := by
  simp only [readKey, h]
  refine ⟨?_, trivial⟩
  simp only [encodeKey]
  split_ifs <;> rfl

/-- Claim C1 (witness): the encoding theorem applied to a world whose
polled queue holds the single pending key `a`. -/
theorem readKey_encodes_popped_key_witness :
    (pollEvents ⟨[], { initMgr with
        pendingKeys := [⟨97, 97, ⟨false, false, false, false, false, false, false⟩⟩] }⟩).mgr.pendingKeys
      = [⟨97, 97, ⟨false, false, false, false, false, false, false⟩⟩]
    ∧ (readKey ⟨[], { initMgr with
        pendingKeys := [⟨97, 97, ⟨false, false, false, false, false, false, false⟩⟩] }⟩).1
      = ((getScancode 97) <<< 8) |||
          (if isExtendedKey 97 = true then EXTENDED_KEY_CODE
           else if (false : Bool) = false ∧ (false : Bool) = false then 97
           else getScancode 97) :=
  ⟨rfl,
   (readKey_encodes_popped_key
     ⟨[], { initMgr with
        pendingKeys := [⟨97, 97, ⟨false, false, false, false, false, false, false⟩⟩] }⟩
     ⟨97, 97, ⟨false, false, false, false, false, false, false⟩⟩ [] rfl).1⟩

/-! ## Claim C10 — `readKey` can return 0 while consuming a key -/

/-- Claim C10: `readKey` can return the no-key sentinel 0 even though it
consumed a pending entry: a queued non-modifier key-down with an
unmapped keycode (here `KEYCODE_F13`), not in the extended set, with no
ctrl/alt and ascii 0, is popped and encoded as 0 — indistinguishable to
the caller from an empty queue. -/
theorem readKey_zero_despite_consuming_key :
    (pollEvents ⟨[Event.keyDown ⟨KEYCODE_F13, 0,
        ⟨false, false, false, false, false, false, false⟩⟩], initMgr⟩).mgr.pendingKeys ≠ []
    ∧ getScancode KEYCODE_F13 = 0
    ∧ isModifierKey KEYCODE_F13 = false
    ∧ isExtendedKey KEYCODE_F13 = false
    ∧ (readKey ⟨[Event.keyDown ⟨KEYCODE_F13, 0,
        ⟨false, false, false, false, false, false, false⟩⟩], initMgr⟩).1 = 0
    ∧ (readKey ⟨[Event.keyDown ⟨KEYCODE_F13, 0,
        ⟨false, false, false, false, false, false, false⟩⟩], initMgr⟩).2.mgr.pendingKeys = [] := by
  refine ⟨by decide, by decide, by decide, by decide, by decide, by decide⟩

theorem pushEvent_noConsecMM (q : List Event) (e : Event) (h : noConsecMM q) :
    noConsecMM (pushEvent q e) := by
  unfold pushEvent
  split
  · -- replace the mouse-move tail
    rename_i hc
    simp only [Bool.and_eq_true, Bool.not_eq_true', List.isEmpty_eq_false] at hc
    obtain ⟨⟨hme, hne⟩, htail⟩ := hc
    have hq : q ≠ [] := by
      intro hnil; rw [hnil] at hne; exact absurd rfl hne
    have hlast : isMouseMove (q.getLast hq) = true := by
      unfold tailIsMouseMove at htail
      rw [List.getLast?_eq_getLast q hq] at htail
      exact htail
    have hsplit : q.dropLast ++ [q.getLast hq] = q := List.dropLast_append_getLast hq
    rw [← hsplit] at h
    unfold noConsecMM at h
    rw [List.chain'_append] at h
    obtain ⟨h1, _, hrel⟩ := h
    unfold noConsecMM
    rw [List.chain'_append]
    refine ⟨h1, List.chain'_singleton e, ?_⟩
    intro x hx y hy
    simp only [List.head?_cons, Option.mem_def, Option.some.injEq] at hy
    subst hy
    intro ⟨hmx, _⟩
    exact (hrel x hx (q.getLast hq) (by simp)) ⟨hmx, hlast⟩
  · -- plain append
    rename_i hc
    unfold noConsecMM
    rw [List.chain'_append]
    refine ⟨h, List.chain'_singleton e, ?_⟩
    intro x hx y hy
    simp only [List.head?_cons, Option.mem_def, Option.some.injEq] at hy
    subst hy
    intro ⟨hmx, hme⟩
    apply hc
    simp only [Bool.and_eq_true, Bool.not_eq_true', List.isEmpty_eq_false]
    refine ⟨⟨hme, ?_⟩, ?_⟩
    · intro hnil; rw [hnil] at hx; simp at hx
    · unfold tailIsMouseMove
      rw [Option.mem_def] at hx
      rw [hx]
      exact hmx

theorem updateKeys_pendingEvents (m : EventsManager) (k : KeyState) (d : Bool) :
    (updateKeys m k d).pendingEvents = m.pendingEvents := by
  simp only [updateKeys]
  split <;> rfl

theorem processEvent_noConsecMM (m : EventsManager) (e : Event)
    (h : noConsecMM m.pendingEvents) : noConsecMM (processEvent m e).pendingEvents := by
  cases e with
  | quit => exact h
  | returnToLauncher => exact h
  | joyAxisMotion a p => exact h
  | joyButtonDown b => exact h
  | joyButtonUp b => exact h
  | keyDown kbd =>
    simp only [processEvent]
    split
    · rw [updateKeys_pendingEvents]; exact h
    · rw [updateKeys_pendingEvents]; exact h
  | keyUp kbd =>
    simp only [processEvent]
    rw [updateKeys_pendingEvents]; exact h
  | mouseMove x y =>
    simp only [processEvent]
    exact pushEvent_noConsecMM _ _ h
  | otherEvent =>
    simp only [processEvent]
    exact pushEvent_noConsecMM _ _ h

theorem pollEventsList_noConsecMM (evs : List Event) :
    ∀ m : EventsManager, noConsecMM m.pendingEvents →
      noConsecMM (pollEventsList m evs).pendingEvents := by
  induction evs with
  | nil => intro m h; exact h
  | cons e rest ih =>
    intro m h
    exact ih (processEvent m e) (processEvent_noConsecMM m e h)

/-! ## Claim C4 — mouse-move coalescing invariant -/

/-- Claim C4: polling any host event stream preserves (and, starting
from the empty queue, establishes) the coalescing invariant: the pending
event queue never holds two consecutive mouse-move entries, because an
incoming mouse move replaces a mouse-move tail instead of being
appended.  Any sequence of `pollEvents` calls is the fold of its
concatenated streams, so the invariant holds after every such
sequence. -/
theorem pollEvents_no_consecutive_mousemoves (w : World)
    (h : noConsecMM w.mgr.pendingEvents) :
    noConsecMM (pollEvents w).mgr.pendingEvents :=
  pollEventsList_noConsecMM w.host w.mgr h

/-- Claim C4 (witness): the invariant after polling a concrete stream
with back-to-back mouse moves from the initial manager. -/
theorem pollEvents_no_consecutive_mousemoves_witness :
    noConsecMM (pollEvents ⟨[Event.mouseMove 1 1, Event.mouseMove 2 2,
      Event.otherEvent, Event.mouseMove 3 3], initMgr⟩).mgr.pendingEvents :=
  pollEvents_no_consecutive_mousemoves
    ⟨[Event.mouseMove 1 1, Event.mouseMove 2 2,
      Event.otherEvent, Event.mouseMove 3 3], initMgr⟩
    (by simp [noConsecMM, initMgr])

theorem updateKeys_pendingKeys (m : EventsManager) (k : KeyState) (d : Bool) :
    (updateKeys m k d).pendingKeys = m.pendingKeys := by
  simp only [updateKeys]
  split <;> rfl

theorem pollEventsList_keyDowns (ks : List KeyState) :
    ∀ m : EventsManager, (∀ k ∈ ks, isModifierKey k.keycode = false) →
      (pollEventsList m (ks.map Event.keyDown)).pendingKeys = m.pendingKeys ++ ks := by
  induction ks with
  | nil => intro m _; simp [pollEventsList]
  | cons k rest ih =>
    intro m hmod
    have hk : isModifierKey k.keycode = false := hmod k (by simp)
    have hrest : ∀ x ∈ rest, isModifierKey x.keycode = false :=
      fun x hx => hmod x (by simp [hx])
    simp only [List.map_cons, pollEventsList, List.foldl_cons]
    have hstep : (processEvent m (Event.keyDown k)).pendingKeys = m.pendingKeys ++ [k] := by
      simp only [processEvent, hk]
      rw [if_neg (by simp [hk])]
      simp [updateKeys_pendingKeys]
    have := ih (processEvent m (Event.keyDown k)) hrest
    simp only [pollEventsList] at this
    rw [this, hstep, List.append_assoc]
    rfl

theorem readKeySeq_succ (w : World) (n : Nat) :
    readKeySeq w (n + 1) = (readKey w).1 :: readKeySeq (readKey w).2 n := rfl

theorem readKey_nil (m : EventsManager) (h : m.pendingKeys = []) :
    readKey ⟨[], m⟩ = (0, ⟨[], m⟩) := by
  simp only [readKey, pollEvents, pollEventsList, List.foldl_nil, h]

theorem readKey_cons (m : EventsManager) (k : KeyState) (rest : List KeyState)
    (h : m.pendingKeys = k :: rest) :
    readKey ⟨[], m⟩ = (encodeKey k, ⟨[], { m with pendingKeys := rest }⟩) := by
  simp only [readKey, pollEvents, pollEventsList, List.foldl_nil, h]

theorem readKeySeq_drain (l : List KeyState) :
    ∀ m : EventsManager, m.pendingKeys = l →
      readKeySeq ⟨[], m⟩ (l.length + 1) = l.map encodeKey ++ [0] := by
  induction l with
  | nil =>
    intro m h
    rw [List.length_nil, readKeySeq_succ, readKey_nil m h]
    rfl
  | cons k rest ih =>
    intro m h
    rw [List.length_cons, readKeySeq_succ, readKey_cons m k rest h]
    rw [List.map_cons, List.cons_append]
    exact congrArg (List.cons (encodeKey k)) (ih { m with pendingKeys := rest } rfl)

theorem readKeySeq_poll (hst : List Event) (m : EventsManager) (n : Nat) :
    readKeySeq ⟨hst, m⟩ n = readKeySeq ⟨[], pollEventsList m hst⟩ n := by
  cases n with
  | zero => rfl
  | succ n => rfl

/-! ## Claim C5 — FIFO order of `readKey` -/

/-- Claim C5: after the host delivers `N` key-down events for distinct
non-modifier keys and no further events arrive, `N` successive `readKey`
calls return those keys\' encodings in arrival order and the `(N+1)`-th
call returns 0. -/
theorem readKey_fifo_order (ks : List KeyState)
    (hmod : ∀ k ∈ ks, isModifierKey k.keycode = false)
    (_hdist : (ks.map KeyState.keycode).Nodup) :
    readKeySeq ⟨ks.map Event.keyDown, initMgr⟩ (ks.length + 1)
      = ks.map encodeKey ++ [0] := by
  rw [readKeySeq_poll]
  exact readKeySeq_drain ks _ (by simpa using pollEventsList_keyDowns ks initMgr hmod)

/-- Claim C5 (witness): the FIFO theorem applied to the two distinct
non-modifier keys `a` and `b`. -/
theorem readKey_fifo_order_witness :
    readKeySeq ⟨([⟨97, 97, ⟨false, false, false, false, false, false, false⟩⟩,
                  ⟨98, 98, ⟨false, false, false, false, false, false, false⟩⟩] :
                  List KeyState).map Event.keyDown,
               initMgr⟩
        (([⟨97, 97, ⟨false, false, false, false, false, false, false⟩⟩,
           ⟨98, 98, ⟨false, false, false, false, false, false, false⟩⟩] :
           List KeyState).length + 1)
      = [(⟨97, 97, ⟨false, false, false, false, false, false, false⟩⟩ : KeyState),
         ⟨98, 98, ⟨false, false, false, false, false, false, false⟩⟩].map encodeKey ++ [0] :=
  readKey_fifo_order _ (by decide) (by decide)

/-! ## Claim C9 — unmapped keycodes never touch the key table -/

theorem updateKeys_keys_zero (m : EventsManager) (k : KeyState) (d : Bool)
    (h : m.keys 0 = false) : (updateKeys m k d).keys 0 = false := by
  simp only [updateKeys]
  split
  · rename_i hs
    simp only []
    rw [if_neg (fun h0 => hs h0.symm)]
    exact h
  · exact h

theorem processEvent_keys_zero (m : EventsManager) (e : Event)
    (h : m.keys 0 = false) : (processEvent m e).keys 0 = false := by
  cases e with
  | quit => exact h
  | returnToLauncher => exact h
  | joyAxisMotion a p => exact h
  | joyButtonDown b => exact h
  | joyButtonUp b => exact h
  | keyDown kbd =>
    simp only [processEvent]
    split
    · exact updateKeys_keys_zero m kbd true h
    · exact updateKeys_keys_zero m kbd true h
  | keyUp kbd => exact updateKeys_keys_zero m kbd false h
  | mouseMove x y => exact h
  | otherEvent => exact h

theorem pollEventsList_keys_zero (evs : List Event) :
    ∀ m : EventsManager, m.keys 0 = false →
      (pollEventsList m evs).keys 0 = false := by
  induction evs with
  | nil => intro m h; exact h
  | cons e rest ih =>
    intro m h
    exact ih (processEvent m e) (processEvent_keys_zero m e h)

/-- Claim C9: key events with an unmapped keycode (scancode 0) never
mutate the key-state table — `updateKeys` is the identity on them — and
entry 0 of the table, false initially, stays false across any polled
host stream, so `isKeyPressed 0` always reports false. -/
theorem unmapped_keys_never_mutate (m : EventsManager) (evs : List Event)
    (k : KeyState) (d : Bool)
    (hk : getScancode k.keycode = 0) (h0 : m.keys 0 = false) :
    updateKeys m k d = m
    ∧ (pollEventsList m evs).keys 0 = false
    ∧ isKeyPressed (pollEventsList m evs) 0 = false := by
  refine ⟨?_, ?_, ?_⟩
  · simp [updateKeys, hk]
  · exact pollEventsList_keys_zero evs m h0
  · exact pollEventsList_keys_zero evs m h0

/-- Claim C9 (witness): the theorem applied to the initial manager, a
stream holding key-down and key-up events of the unmapped `F13` key,
and that same key state. -/
theorem unmapped_keys_never_mutate_witness :
    updateKeys initMgr ⟨KEYCODE_F13, 0, ⟨false, false, false, false, false, false, false⟩⟩ true
        = initMgr
    ∧ (pollEventsList initMgr
        [Event.keyDown ⟨KEYCODE_F13, 0, ⟨false, false, false, false, false, false, false⟩⟩,
         Event.keyUp ⟨KEYCODE_F13, 0, ⟨false, false, false, false, false, false, false⟩⟩]).keys 0
        = false
    ∧ isKeyPressed (pollEventsList initMgr
        [Event.keyDown ⟨KEYCODE_F13, 0, ⟨false, false, false, false, false, false, false⟩⟩,
         Event.keyUp ⟨KEYCODE_F13, 0, ⟨false, false, false, false, false, false, false⟩⟩]) 0
        = false :=
  unmapped_keys_never_mutate initMgr
    [Event.keyDown ⟨KEYCODE_F13, 0, ⟨false, false, false, false, false, false, false⟩⟩,
     Event.keyUp ⟨KEYCODE_F13, 0, ⟨false, false, false, false, false, false, false⟩⟩]
    ⟨KEYCODE_F13, 0, ⟨false, false, false, false, false, false, false⟩⟩ true
    (by decide) rfl

/-! ## Claim C8 — shift+Left with the caret at position 0 -/

/-- Claim C8 (counterexample): with buffer "hello" and caret 0, the
shift+Left press is not a no-op on the widget's selection state — the
branch sets the highlight-visible flag before testing the
selection-start constraint, so the flag flips from false to true even
though no character gets selected. -/
theorem shift_left_at_zero_not_noop :
    (handleKeyDown ⟨fun _ => 1, fun s => (s.length : Int), 100, none⟩
        ⟨[104, 101, 108, 108, 111], 0, false, 0, 0, 0, [], 0, true, 7⟩
        ⟨KEYCODE_LEFT, 0, ⟨false, false, true, false, false, false, false⟩⟩).map
        (fun o => o.widget.highlightVisible)
      = some true
    ∧ (true : Bool) ≠ false := by
  exact ⟨by rfl, by decide⟩

/-- Claim C8 (amended): with buffer "hello" and caret 0, shift+Left
leaves the buffer, the caret, the selection start and the
selected-character count unchanged — no characters are selected — but it
does set the highlight-visible flag to true, so the press is not a
complete no-op on the selection state. -/
theorem shift_left_at_zero_state :
    (handleKeyDown ⟨fun _ => 1, fun s => (s.length : Int), 100, none⟩
        ⟨[104, 101, 108, 108, 111], 0, false, 0, 0, 0, [], 0, true, 7⟩
        ⟨KEYCODE_LEFT, 0, ⟨false, false, true, false, false, false, false⟩⟩).map
        (fun o => (o.widget.editString, o.widget.caretPos, o.widget.highlightPos,
          o.widget.highlightCharacterCount, o.widget.highlightVisible, o.sends))
      = some ([104, 101, 108, 108, 111], 0, 0, 0, true, []) := by
  rfl

/-! ## Claim C3 — notifications on mutating edits -/

/-- Claim C3 (counterexample): a ctrl+v paste of the clipboard text "hi"
into an empty enabled widget inserts both characters — a mutating edit —
yet fires no `sendCommand` notification at all: the paste branch never
calls `sendCommand`. -/
theorem paste_mutates_without_notification :
    (handleKeyDown ⟨fun _ => 1, fun s => (s.length : Int), 100, some [104, 105]⟩
        ⟨[], 0, false, 0, 0, 0, [], 0, true, 7⟩
        ⟨KEYCODE_v, 118, ⟨true, false, false, false, false, false, false⟩⟩).map
        (fun o => (o.widget.editString, o.widget.caretPos, o.sends, o.dirty))
      = some ([104, 105], 2, [], true)
    ∧ ([104, 105] : List Nat) ≠ [] := by
  exact ⟨by rfl, by decide⟩

/-! ## Supporting lemmas for the widget proofs -/

theorem insertChar_some (s : List Nat) (c p : Nat) (t : List Nat)
    (h : insertChar s c p = some t) : p ≤ s.length ∧ t.length = s.length + 1 := by
  unfold insertChar at h
  split at h
  · rename_i hp
    injection h with h
    subst h
    refine ⟨hp, ?_⟩
    simp [List.length_append, List.length_take, List.length_drop]
    omega
  · exact Option.noConfusion h

theorem deleteChar_some (s : List Nat) (p : Nat) (t : List Nat)
    (h : deleteChar s p = some t) : p < s.length ∧ t.length + 1 = s.length := by
  unfold deleteChar at h
  split at h
  · rename_i hp
    injection h with h
    subst h
    refine ⟨hp, ?_⟩
    simp [List.length_append, List.length_take, List.length_drop]
    omega
  · exact Option.noConfusion h

theorem setCaretPos_some (env : GuiEnv) (w : EditableWidget) (p : Nat)
    (w2 : EditableWidget) (b : Bool) (h : setCaretPos env w p = some (w2, b)) :
    p ≤ w.editString.length
    ∧ w2 = { w with
             caretPos := p,
             editScrollOffset := (adjustOffsetValue env { w with caretPos := p }).1 } := by
  unfold setCaretPos at h
  split at h
  · rename_i hp
    unfold adjustOffset at h
    injection h with h
    injection h with h1 h2
    exact ⟨hp, h1.symm⟩
  · exact Option.noConfusion h

theorem tryInsertChar_cases (w : EditableWidget) (c p : Nat)
    (r : EditableWidget × Bool) (h : tryInsertChar w c p = some r) :
    (∃ t, insertChar w.editString c p = some t
          ∧ r = ({ w with editString := t }, true))
    ∨ r = (w, false) := by
  unfold tryInsertChar at h
  split at h
  · cases hi : insertChar w.editString c p with
    | none => rw [hi] at h; exact Option.noConfusion h
    | some t =>
      rw [hi] at h
      injection h with h
      exact Or.inl ⟨t, rfl, h.symm⟩
  · injection h with h
    exact Or.inr h.symm

theorem doReturnKey_spec (w : EditableWidget)
    (hinv : w.caretPos ≤ w.editString.length) :
    (doReturnKey w).widget.caretPos ≤ (doReturnKey w).widget.editString.length
    ∧ ((doReturnKey w).sends ≠ [] ∨ (doReturnKey w).widget.editString = w.editString) :=
  ⟨hinv, Or.inr rfl⟩

theorem doEscapeKey_spec (w : EditableWidget)
    (hinv : w.caretPos ≤ w.editString.length) :
    (doEscapeKey w).widget.caretPos ≤ (doEscapeKey w).widget.editString.length
    ∧ ((doEscapeKey w).sends ≠ [] ∨ (doEscapeKey w).widget.editString = w.editString) :=
  ⟨hinv, Or.inr rfl⟩

theorem doBackspace_spec (env : GuiEnv) (w : EditableWidget) (out : KeyDownOut)
    (hinv : w.caretPos ≤ w.editString.length)
    (h : doBackspace env w = some out) :
    out.widget.caretPos ≤ out.widget.editString.length
    ∧ (out.sends ≠ [] ∨ out.widget.editString = w.editString) := by
  unfold doBackspace at h
  split at h
  · split at h
    · exact Option.noConfusion h
    · split at h
      · exact Option.noConfusion h
      · rename_i es hs heq w2 b hset
        injection h with h
        subst h
        obtain ⟨hp, hw2⟩ := setCaretPos_some env _ _ _ _ hset
        subst hw2
        refine ⟨?_, Or.inl (by simp [baseOut])⟩
        simp only [baseOut, initHighlight] at hp ⊢
        simpa using hp
  · split at h
    · split at h
      · exact Option.noConfusion h
      · rename_i hpos es hdel
        injection h with h
        subst h
        obtain ⟨hlt, hlen⟩ := deleteChar_some _ _ _ hdel
        refine ⟨?_, Or.inl (by simp [baseOut])⟩
        simp only [baseOut, initHighlight]
        omega
    · injection h with h
      subst h
      exact ⟨hinv, Or.inr rfl⟩

theorem doDeleteKey_spec (env : GuiEnv) (w : EditableWidget) (out : KeyDownOut)
    (hinv : w.caretPos ≤ w.editString.length)
    (h : doDeleteKey env w = some out) :
    out.widget.caretPos ≤ out.widget.editString.length
    ∧ (out.sends ≠ [] ∨ out.widget.editString = w.editString) := by
  unfold doDeleteKey at h
  split at h
  · split at h
    · exact Option.noConfusion h
    · split at h
      · exact Option.noConfusion h
      · rename_i es hs heq w2 b hset
        injection h with h
        subst h
        obtain ⟨hp, hw2⟩ := setCaretPos_some env _ _ _ _ hset
        subst hw2
        refine ⟨?_, Or.inl (by simp [baseOut])⟩
        simp only [baseOut, initHighlight] at hp ⊢
        simpa using hp
  · split at h
    · split at h
      · exact Option.noConfusion h
      · rename_i hpos es hdel
        injection h with h
        subst h
        obtain ⟨hlt, hlen⟩ := deleteChar_some _ _ _ hdel
        refine ⟨?_, Or.inl (by simp [baseOut])⟩
        simp only [baseOut, initHighlight]
        omega
    · injection h with h
      subst h
      exact ⟨hinv, Or.inr rfl⟩

theorem doDownEnd_spec (env : GuiEnv) (w : EditableWidget) (out : KeyDownOut)
    (h : doDownEnd env w = some out) :
    out.widget.caretPos ≤ out.widget.editString.length
    ∧ (out.sends ≠ [] ∨ out.widget.editString = w.editString) := by
  unfold doDownEnd at h
  split at h
  · exact Option.noConfusion h
  · rename_i w2 b hset
    injection h with h
    subst h
    obtain ⟨hp, hw2⟩ := setCaretPos_some env _ _ _ _ hset
    subst hw2
    refine ⟨?_, Or.inr (by simp [baseOut, initHighlight])⟩
    simp [baseOut, initHighlight]

theorem doLeft_spec (env : GuiEnv) (w : EditableWidget) (state : KeyState)
    (out : KeyDownOut) (hinv : w.caretPos ≤ w.editString.length)
    (h : doLeft env w state = some out) :
    out.widget.caretPos ≤ out.widget.editString.length
    ∧ (out.sends ≠ [] ∨ out.widget.editString = w.editString) := by
  unfold doLeft at h
  split at h
  · split at h
    · split at h
      · exact Option.noConfusion h
      · split at h
        · exact Option.noConfusion h
        · injection h with h
          subst h
          exact ⟨by simpa [baseOut] using hinv, Or.inr (by simp [baseOut])⟩
    · injection h with h
      subst h
      exact ⟨by simpa [baseOut] using hinv, Or.inr (by simp [baseOut])⟩
  · split at h
    · split at h
      · exact Option.noConfusion h
      · rename_i hpos w2 b hset
        injection h with h
        subst h
        obtain ⟨hp, hw2⟩ := setCaretPos_some env _ _ _ _ hset
        subst hw2
        refine ⟨?_, Or.inr (by simp [baseOut, initHighlight])⟩
        simp only [baseOut, initHighlight]
        omega
    · injection h with h
      subst h
      exact ⟨by simpa [baseOut] using hinv, Or.inr (by simp [baseOut])⟩

theorem doRight_spec (env : GuiEnv) (w : EditableWidget) (out : KeyDownOut)
    (hinv : w.caretPos ≤ w.editString.length)
    (h : doRight env w = some out) :
    out.widget.caretPos ≤ out.widget.editString.length
    ∧ (out.sends ≠ [] ∨ out.widget.editString = w.editString) := by
  unfold doRight at h
  split at h
  · split at h
    · exact Option.noConfusion h
    · rename_i hlt w2 b hset
      injection h with h
      subst h
      obtain ⟨hp, hw2⟩ := setCaretPos_some env _ _ _ _ hset
      subst hw2
      refine ⟨?_, Or.inl (by simp [baseOut])⟩
      simp only [baseOut, initHighlight]
      omega
  · injection h with h
    subst h
    exact ⟨by simpa [baseOut, initHighlight] using hinv, Or.inl (by simp [baseOut])⟩

theorem doUpHome_spec (env : GuiEnv) (w : EditableWidget) (out : KeyDownOut)
    (h : doUpHome env w = some out) :
    out.widget.caretPos ≤ out.widget.editString.length
    ∧ (out.sends ≠ [] ∨ out.widget.editString = w.editString) := by
  unfold doUpHome at h
  split at h
  · exact Option.noConfusion h
  · rename_i w2 b hset
    injection h with h
    subst h
    obtain ⟨hp, hw2⟩ := setCaretPos_some env _ _ _ _ hset
    subst hw2
    refine ⟨?_, Or.inr (by simp [baseOut, initHighlight])⟩
    simp [baseOut, initHighlight]

theorem defaultKeyDownHandler_spec (env : GuiEnv) (w : EditableWidget)
    (state : KeyState) (out : KeyDownOut)
    (hinv : w.caretPos ≤ w.editString.length)
    (h : defaultKeyDownHandler env w state = some out) :
    out.widget.caretPos ≤ out.widget.editString.length
    ∧ (out.sends ≠ [] ∨ out.widget.editString = w.editString) := by
  unfold defaultKeyDownHandler at h
  split at h
  · split at h
    · split at h
      · exact Option.noConfusion h
      · rename_i w1 acc htri
        split at h
        · split at h
          · exact Option.noConfusion h
          · split at h
            · exact Option.noConfusion h
            · rename_i hacc es hs hrun w2 b hset
              injection h with h
              subst h
              obtain ⟨hp, hw2⟩ := setCaretPos_some env _ _ _ _ hset
              subst hw2
              refine ⟨?_, Or.inl (by simp [baseOut])⟩
              simp only [baseOut, initHighlight] at hp ⊢
              simpa using hp
        · rename_i hacc
          injection h with h
          subst h
          rcases tryInsertChar_cases w _ _ _ htri with ⟨t, hins, hpair⟩ | hpair
          · injection hpair with h1 h2
            exact absurd h2 hacc
          · injection hpair with h1 h2
            subst h1
            exact ⟨hinv, Or.inr rfl⟩
    · injection h with h
      subst h
      exact ⟨hinv, Or.inr rfl⟩
  · split at h
    · split at h
      · exact Option.noConfusion h
      · rename_i w1 acc htri
        split at h
        · rename_i hacc
          injection h with h
          subst h
          rcases tryInsertChar_cases w _ _ _ htri with ⟨t, hins, hpair⟩ | hpair
          · injection hpair with h1 h2
            subst h1
            obtain ⟨hp, hlen⟩ := insertChar_some _ _ _ _ hins
            refine ⟨?_, Or.inl (by simp [baseOut])⟩
            simp only [baseOut, initHighlight]
            omega
          · injection hpair with h1 h2
            subst h2
            exact Bool.noConfusion hacc
        · rename_i hacc
          injection h with h
          subst h
          rcases tryInsertChar_cases w _ _ _ htri with ⟨t, hins, hpair⟩ | hpair
          · injection hpair with h1 h2
            exact absurd h2 hacc
          · injection hpair with h1 h2
            subst h1
            exact ⟨hinv, Or.inr rfl⟩
    · injection h with h
      subst h
      exact ⟨hinv, Or.inr rfl⟩

theorem pasteChars_inv (l : List Nat) : ∀ w w2 : EditableWidget,
    pasteChars w l = some w2 → w.caretPos ≤ w.editString.length →
    w2.caretPos ≤ w2.editString.length := by
  induction l with
  | nil =>
    intro w w2 h hinv
    unfold pasteChars at h
    injection h with h
    subst h
    exact hinv
  | cons c rest ih =>
    intro w w2 h hinv
    unfold pasteChars at h
    split at h
    · exact Option.noConfusion h
    · rename_i w1 acc htri
      rcases tryInsertChar_cases w _ _ _ htri with ⟨t, hins, hpair⟩ | hpair
      · injection hpair with h1 h2
        subst h1
        subst h2
        rw [if_pos rfl] at h
        obtain ⟨hp, hlen⟩ := insertChar_some _ _ _ _ hins
        refine ih _ _ h ?_
        simp only []
        omega
      · injection hpair with h1 h2
        subst h1
        subst h2
        rw [if_neg (by simp)] at h
        exact ih _ _ h hinv

theorem doPasteKey_inv (env : GuiEnv) (w : EditableWidget) (state : KeyState)
    (out : KeyDownOut) (hinv : w.caretPos ≤ w.editString.length)
    (h : doPasteKey env w state = some out) :
    out.widget.caretPos ≤ out.widget.editString.length := by
  unfold doPasteKey at h
  split at h
  · split at h
    · split at h
      · exact Option.noConfusion h
      · rename_i raw w2 hpc
        injection h with h
        subst h
        have : (initHighlight w).caretPos ≤ (initHighlight w).editString.length := by
          simpa [initHighlight] using hinv
        simpa [baseOut] using pasteChars_inv _ _ _ hpc this
    · injection h with h
      subst h
      exact hinv
  · exact (defaultKeyDownHandler_spec env w state out hinv h).1

theorem doPasteKey_not_ctrl (env : GuiEnv) (w : EditableWidget) (state : KeyState)
    (hc : ¬state.flags.ctrl = true) :
    doPasteKey env w state = defaultKeyDownHandler env w state := by
  unfold doPasteKey
  rw [if_neg hc]

theorem doCopyKey_spec (env : GuiEnv) (w : EditableWidget) (state : KeyState)
    (out : KeyDownOut) (hinv : w.caretPos ≤ w.editString.length)
    (h : doCopyKey env w state = some out) :
    out.widget.caretPos ≤ out.widget.editString.length
    ∧ (out.sends ≠ [] ∨ out.widget.editString = w.editString) := by
  unfold doCopyKey at h
  split at h
  · split at h
    · injection h with h
      subst h
      exact ⟨hinv, Or.inr rfl⟩
    · injection h with h
      subst h
      exact ⟨hinv, Or.inr rfl⟩
  · exact defaultKeyDownHandler_spec env w state out hinv h

theorem kpRemapTable_ne_v (i : Nat) :
    kpRemapTable.getD i KEYCODE_INVALID ≠ KEYCODE_v := by
  rcases i with _|_|_|_|_|_|_|_|_|_|_|n
  · decide
  · decide
  · decide
  · decide
  · decide
  · decide
  · decide
  · decide
  · decide
  · decide
  · decide
  · intro hcon
    simp [kpRemapTable, List.getD, KEYCODE_INVALID, KEYCODE_v] at hcon

theorem remapNumPad_flags (state : KeyState) :
    (remapNumPad state).flags = state.flags := by
  unfold remapNumPad
  split <;> rfl

theorem remapNumPad_not_paste (state : KeyState)
    (hnp : ¬(state.keycode = KEYCODE_v ∧ state.flags.ctrl = true)) :
    ¬((remapNumPad state).keycode = KEYCODE_v
      ∧ (remapNumPad state).flags.ctrl = true) := by
  unfold remapNumPad
  split
  · intro hcon
    exact kpRemapTable_ne_v _ hcon.1
  · exact hnp

theorem dispatchKey_inv (env : GuiEnv) (w : EditableWidget) (state : KeyState)
    (out : KeyDownOut) (hinv : w.caretPos ≤ w.editString.length)
    (h : dispatchKey env w state = some out) :
    out.widget.caretPos ≤ out.widget.editString.length := by
  unfold dispatchKey at h
  split at h
  · injection h with h; subst h; exact (doReturnKey_spec w hinv).1
  · split at h
    · injection h with h; subst h; exact (doEscapeKey_spec w hinv).1
    · split at h
      · exact (doBackspace_spec env w out hinv h).1
      · split at h
        · exact (doDeleteKey_spec env w out hinv h).1
        · split at h
          · exact (doDownEnd_spec env w out h).1
          · split at h
            · exact (doLeft_spec env w state out hinv h).1
            · split at h
              · exact (doRight_spec env w out hinv h).1
              · split at h
                · exact (doUpHome_spec env w out h).1
                · split at h
                  · exact doPasteKey_inv env w state out hinv h
                  · split at h
                    · exact (doCopyKey_spec env w state out hinv h).1
                    · exact (defaultKeyDownHandler_spec env w state out hinv h).1

theorem dispatchKey_notify (env : GuiEnv) (w : EditableWidget) (state : KeyState)
    (out : KeyDownOut) (hinv : w.caretPos ≤ w.editString.length)
    (hnp : ¬(state.keycode = KEYCODE_v ∧ state.flags.ctrl = true))
    (h : dispatchKey env w state = some out) :
    out.sends ≠ [] ∨ out.widget.editString = w.editString := by
  unfold dispatchKey at h
  split at h
  · injection h with h; subst h; exact (doReturnKey_spec w hinv).2
  · split at h
    · injection h with h; subst h; exact (doEscapeKey_spec w hinv).2
    · split at h
      · exact (doBackspace_spec env w out hinv h).2
      · split at h
        · exact (doDeleteKey_spec env w out hinv h).2
        · split at h
          · exact (doDownEnd_spec env w out h).2
          · split at h
            · exact (doLeft_spec env w state out hinv h).2
            · split at h
              · exact (doRight_spec env w out hinv h).2
              · split at h
                · exact (doUpHome_spec env w out h).2
                · split at h
                  · rename_i hkv
                    rw [doPasteKey_not_ctrl env w state
                      (fun hc => hnp ⟨hkv, hc⟩)] at h
                    exact (defaultKeyDownHandler_spec env w state out hinv h).2
                  · split at h
                    · exact (doCopyKey_spec env w state out hinv h).2
                    · exact (defaultKeyDownHandler_spec env w state out hinv h).2

/-! ## Claim C7 — preservation of the caret-position invariant -/

/-- Claim C7: every completed `handleKeyDown` call on an enabled widget
preserves the caret invariant `0 ≤ caretPos ≤ len(editString)` across
every branch (the lower bound is inherent in the `Nat` representation:
every decrement in the source is guarded by a positivity test; a `some`
result corresponds to a run with no assertion failure). -/
theorem handleKeyDown_preserves_caret_invariant (env : GuiEnv)
    (w : EditableWidget) (state0 : KeyState) (out : KeyDownOut)
    (hinv : w.caretPos ≤ w.editString.length)
    (hen : w.enabled = true)
    (h : handleKeyDown env w state0 = some out) :
    out.widget.caretPos ≤ out.widget.editString.length := by
  unfold handleKeyDown at h
  rw [if_neg (by simp [hen])] at h
  exact dispatchKey_inv env w _ out hinv h

/-- Claim C7 (witness): the invariant-preservation theorem applied to a
concrete Return press on the buffer "ab" with the caret at 1. -/
theorem handleKeyDown_preserves_caret_invariant_witness :
    (1 : Nat) ≤ ([97, 98] : List Nat).length
    ∧ (⟨⟨[97, 98], 1, false, 1, 0, 0, [32], 0, true, 7⟩, [], true, false, true,
        true, false, none⟩ : KeyDownOut).widget.caretPos
      ≤ (⟨⟨[97, 98], 1, false, 1, 0, 0, [32], 0, true, 7⟩, [], true, false, true,
          true, false, none⟩ : KeyDownOut).widget.editString.length :=
  ⟨by decide,
   handleKeyDown_preserves_caret_invariant
     ⟨fun _ => 1, fun s => (s.length : Int), 100, none⟩
     ⟨[97, 98], 1, false, 1, 0, 0, [32], 0, true, 7⟩
     ⟨KEYCODE_RETURN, 13, ⟨false, false, false, false, false, false, false⟩⟩
     ⟨⟨[97, 98], 1, false, 1, 0, 0, [32], 0, true, 7⟩, [], true, false, true,
       true, false, none⟩
     (by decide) rfl (by rfl)⟩

/-- Claim C3 (amended): every completed `handleKeyDown` call on an
enabled widget that mutates the text buffer fires at least one
content-changed notification — except the ctrl+v paste branch, which
mutates the buffer without notifying (see the counterexample). -/
theorem mutating_edit_notifies_except_paste (env : GuiEnv)
    (w : EditableWidget) (state0 : KeyState) (out : KeyDownOut)
    (hinv : w.caretPos ≤ w.editString.length)
    (hen : w.enabled = true)
    (h : handleKeyDown env w state0 = some out)
    (hmut : out.widget.editString ≠ w.editString)
    (hnp : ¬(state0.keycode = KEYCODE_v ∧ state0.flags.ctrl = true)) :
    out.sends ≠ [] := by
  unfold handleKeyDown at h
  rw [if_neg (by simp [hen])] at h
  rcases dispatchKey_notify env w (remapNumPad state0) out hinv
      (remapNumPad_not_paste state0 hnp) h with hs | hunch
  · exact hs
  · exact absurd hunch hmut

/-- Claim C3 (witness): the amended theorem applied to a concrete
Backspace press on "ab" with the caret at 2, which mutates the buffer
to "a" and fires one notification. -/
theorem mutating_edit_notifies_except_paste_witness :
    (⟨⟨[97], 1, false, 1, 0, 0, [32], 0, true, 7⟩, [(7, 0)], true, true, true,
       false, false, none⟩ : KeyDownOut).sends ≠ [] :=
  mutating_edit_notifies_except_paste
    ⟨fun _ => 1, fun s => (s.length : Int), 100, none⟩
    ⟨[97, 98], 2, false, 2, 0, 0, [32, 32], 0, true, 7⟩
    ⟨KEYCODE_BACKSPACE, 8, ⟨false, false, false, false, false, false, false⟩⟩
    ⟨⟨[97], 1, false, 1, 0, 0, [32], 0, true, 7⟩, [(7, 0)], true, true, true,
      false, false, none⟩
    (by decide) rfl (by rfl) (by decide) (by decide)

/-! ## Claim C6 — Right/Left notification asymmetry -/

/-- Claim C6: on an enabled widget the Right-arrow press always fires a
change notification — even when the caret is already at the end of the
buffer and does not move — whereas Left-arrow without shift fires one
exactly when the caret actually moves (caret > 0). -/
theorem right_unconditional_left_conditional_notify (env : GuiEnv)
    (w : EditableWidget) (a1 a2 : Nat) (f : ModFlags)
    (hen : w.enabled = true)
    (hinv : w.caretPos ≤ w.editString.length)
    (hshift : f.shift = false) :
    (∃ out, handleKeyDown env w ⟨KEYCODE_RIGHT, a1, f⟩ = some out
        ∧ out.sends ≠ [])
    ∧ (∃ out, handleKeyDown env w ⟨KEYCODE_LEFT, a2, f⟩ = some out
        ∧ (out.sends ≠ [] ↔ 0 < w.caretPos)) := by
  have hR : remapNumPad ⟨KEYCODE_RIGHT, a1, f⟩ = ⟨KEYCODE_RIGHT, a1, f⟩ := by
    unfold remapNumPad
    rw [if_neg]
    intro hcon
    exact absurd hcon.2.2 (by simp [KEYCODE_RIGHT, KEYCODE_KP_PERIOD])
  have hL : remapNumPad ⟨KEYCODE_LEFT, a2, f⟩ = ⟨KEYCODE_LEFT, a2, f⟩ := by
    unfold remapNumPad
    rw [if_neg]
    intro hcon
    exact absurd hcon.2.2 (by simp [KEYCODE_LEFT, KEYCODE_KP_PERIOD])
  constructor
  · unfold handleKeyDown
    rw [if_neg (by simp [hen]), hR]
    unfold dispatchKey
    rw [if_neg (by simp [KEYCODE_RETURN, KEYCODE_KP_ENTER, KEYCODE_ESCAPE, KEYCODE_BACKSPACE, KEYCODE_DELETE, KEYCODE_DOWN, KEYCODE_END, KEYCODE_LEFT, KEYCODE_RIGHT]), if_neg (by simp [KEYCODE_RETURN, KEYCODE_KP_ENTER, KEYCODE_ESCAPE, KEYCODE_BACKSPACE, KEYCODE_DELETE, KEYCODE_DOWN, KEYCODE_END, KEYCODE_LEFT, KEYCODE_RIGHT]),
        if_neg (by simp [KEYCODE_RETURN, KEYCODE_KP_ENTER, KEYCODE_ESCAPE, KEYCODE_BACKSPACE, KEYCODE_DELETE, KEYCODE_DOWN, KEYCODE_END, KEYCODE_LEFT, KEYCODE_RIGHT]), if_neg (by simp [KEYCODE_RETURN, KEYCODE_KP_ENTER, KEYCODE_ESCAPE, KEYCODE_BACKSPACE, KEYCODE_DELETE, KEYCODE_DOWN, KEYCODE_END, KEYCODE_LEFT, KEYCODE_RIGHT]),
        if_neg (by simp [KEYCODE_RETURN, KEYCODE_KP_ENTER, KEYCODE_ESCAPE, KEYCODE_BACKSPACE, KEYCODE_DELETE, KEYCODE_DOWN, KEYCODE_END, KEYCODE_LEFT, KEYCODE_RIGHT]), if_neg (by simp [KEYCODE_RETURN, KEYCODE_KP_ENTER, KEYCODE_ESCAPE, KEYCODE_BACKSPACE, KEYCODE_DELETE, KEYCODE_DOWN, KEYCODE_END, KEYCODE_LEFT, KEYCODE_RIGHT]),
        if_pos rfl]
    unfold doRight
    by_cases hlt : w.caretPos < w.editString.length
    · rw [if_pos hlt]
      unfold setCaretPos
      rw [if_pos (by omega)]
      unfold adjustOffset
      exact ⟨_, rfl, by simp [baseOut]⟩
    · rw [if_neg hlt]
      exact ⟨_, rfl, by simp [baseOut]⟩
  · unfold handleKeyDown
    rw [if_neg (by simp [hen]), hL]
    unfold dispatchKey
    rw [if_neg (by simp [KEYCODE_RETURN, KEYCODE_KP_ENTER, KEYCODE_ESCAPE, KEYCODE_BACKSPACE, KEYCODE_DELETE, KEYCODE_DOWN, KEYCODE_END, KEYCODE_LEFT, KEYCODE_RIGHT]), if_neg (by simp [KEYCODE_RETURN, KEYCODE_KP_ENTER, KEYCODE_ESCAPE, KEYCODE_BACKSPACE, KEYCODE_DELETE, KEYCODE_DOWN, KEYCODE_END, KEYCODE_LEFT, KEYCODE_RIGHT]),
        if_neg (by simp [KEYCODE_RETURN, KEYCODE_KP_ENTER, KEYCODE_ESCAPE, KEYCODE_BACKSPACE, KEYCODE_DELETE, KEYCODE_DOWN, KEYCODE_END, KEYCODE_LEFT, KEYCODE_RIGHT]), if_neg (by simp [KEYCODE_RETURN, KEYCODE_KP_ENTER, KEYCODE_ESCAPE, KEYCODE_BACKSPACE, KEYCODE_DELETE, KEYCODE_DOWN, KEYCODE_END, KEYCODE_LEFT, KEYCODE_RIGHT]),
        if_neg (by simp [KEYCODE_RETURN, KEYCODE_KP_ENTER, KEYCODE_ESCAPE, KEYCODE_BACKSPACE, KEYCODE_DELETE, KEYCODE_DOWN, KEYCODE_END, KEYCODE_LEFT, KEYCODE_RIGHT]), if_pos rfl]
    unfold doLeft
    rw [if_neg (by simp [hshift])]
    by_cases hpos : 0 < w.caretPos
    · rw [if_pos hpos]
      unfold setCaretPos
      rw [if_pos (by omega)]
      unfold adjustOffset
      exact ⟨_, rfl, by simp [baseOut, hpos]⟩
    · rw [if_neg hpos]
      refine ⟨_, rfl, ?_⟩
      simp only [baseOut]
      constructor
      · intro hcon
        exact absurd rfl hcon
      · intro hcon
        exact absurd hcon hpos

/-- Claim C6 (witness): the asymmetry theorem applied to the buffer "a"
with the caret already at the end (position 1), so the Right press does
not move the caret yet still notifies, and Left notifies because the
caret moves. -/
theorem right_unconditional_left_conditional_notify_witness :
    (∃ out, handleKeyDown ⟨fun _ => 1, fun s => (s.length : Int), 100, none⟩
        ⟨[97], 1, false, 1, 0, 0, [32], 0, true, 7⟩
        ⟨KEYCODE_RIGHT, 0, ⟨false, false, false, false, false, false, false⟩⟩ = some out
        ∧ out.sends ≠ [])
    ∧ (∃ out, handleKeyDown ⟨fun _ => 1, fun s => (s.length : Int), 100, none⟩
        ⟨[97], 1, false, 1, 0, 0, [32], 0, true, 7⟩
        ⟨KEYCODE_LEFT, 0, ⟨false, false, false, false, false, false, false⟩⟩ = some out
        ∧ (out.sends ≠ [] ↔
            0 < (⟨[97], 1, false, 1, 0, 0, [32], 0, true, 7⟩ : EditableWidget).caretPos)) :=
  right_unconditional_left_conditional_notify
    ⟨fun _ => 1, fun s => (s.length : Int), 100, none⟩
    ⟨[97], 1, false, 1, 0, 0, [32], 0, true, 7⟩ 0 0
    ⟨false, false, false, false, false, false, false⟩
    rfl (by decide) rfl
